import Mathlib

/-
Verification of the market-making engine in
supabase/functions/polymarket-api/index.ts (the current v5 revision, the
first document in the file) and the cycle driver in src/hooks/useBotState.ts.

Shallow embedding conventions:
* JavaScript numbers are modelled as rationals (ℚ); integer-valued results
  (basis points, rounded sizes) use ℤ.  Math.floor, Math.ceil and Math.round
  are Int.floor, Int.ceil and the JS half-up rounding jsRound below.
* Untyped JS runtime values reaching getErrorMessage are modelled by the
  inductive JsValue; JSON.stringify is stringifyJs (Except for throwing on
  circular structures, Option for the undefined result), String(x) is
  jsToString.
* Supabase tables are modelled by explicit rows / lists of rows; each upsert
  or update statement becomes a pure function on those rows.
* The one-per-request run_cycle handler is modelled piecewise: config
  normalisation (applyDefaults / normalizeConfig), the position auto-reset
  (autoResetPositions), the circuit-breaker gate and its surrounding cycle
  skeleton (runCycleOutcome, with the quoting work abstracted by a
  parameter since the gate returns before it), the per-market quoting
  pipeline (planQuote) and live reconciliation (reconcileSide,
  processMarket).
-/

/-- JS Math.round: rounds half up (towards plus infinity), also for negative
inputs, so it is the floor of x + 1/2. -/
def jsRound (x : ℚ) : ℤ := ⌊x + 1/2⌋

/-! ### getErrorMessage (index.ts lines 21-25) -/

/-- A JavaScript runtime value as it can reach the error normalizer:
an Error instance carrying a message, a string, a primitive, an acyclic
plain object, a function, or an object with a reference cycle (on which
JSON.stringify throws). -/
inductive JsValue where
  | errorV (message : String)
  | stringV (s : String)
  | numberV (n : ℤ)
  | boolV (b : Bool)
  | nullV
  | undefinedV
  | funcV
  | objectV (fields : List (String × JsValue))
  | circularV

mutual

/-- JSON.stringify: Except.error models a thrown TypeError (circular
structure), Except.ok none models the undefined result (input undefined, a
function or a symbol), Except.ok (some s) a proper JSON string.  Error
instances serialise to an empty object because their fields are not
enumerable. -/
def stringifyJs : JsValue → Except Unit (Option String)
  | JsValue.errorV _ => Except.ok (some "\x7b\x7d")
  | JsValue.stringV s => Except.ok (some ("\"" ++ s ++ "\""))
  | JsValue.numberV n => Except.ok (some (toString n))
  | JsValue.boolV b => Except.ok (some (if b then "true" else "false"))
  | JsValue.nullV => Except.ok (some "null")
  | JsValue.undefinedV => Except.ok none
  | JsValue.funcV => Except.ok none
  | JsValue.circularV => Except.error ()
  | JsValue.objectV fields =>
    match stringifyFields fields with
    | Except.error e => Except.error e
    | Except.ok parts => Except.ok (some ("\x7b" ++ String.intercalate "," parts ++ "\x7d"))

/-- Serialises the fields of a plain object; fields whose value stringifies
to undefined are omitted, a throwing field propagates. -/
def stringifyFields : List (String × JsValue) → Except Unit (List String)
  | [] => Except.ok []
  | (k, v) :: rest =>
    match stringifyJs v, stringifyFields rest with
    | Except.error e, _ => Except.error e
    | _, Except.error e => Except.error e
    | Except.ok none, Except.ok parts => Except.ok parts
    | Except.ok (some s), Except.ok parts => Except.ok (("\"" ++ k ++ "\":" ++ s) :: parts)

end

/-- JS String(x) coercion, the catch-branch fallback of getErrorMessage. -/
def jsToString : JsValue → String
  | JsValue.errorV m => "Error: " ++ m
  | JsValue.stringV s => s
  | JsValue.numberV n => toString n
  | JsValue.boolV b => if b then "true" else "false"
  | JsValue.nullV => "null"
  | JsValue.undefinedV => "undefined"
  | JsValue.funcV => "function"
  | JsValue.objectV _ => "[object Object]"
  | JsValue.circularV => "[object Object]"

/-- index.ts lines 21-25: if e instanceof Error return e.message; if typeof
e is string return e; otherwise try JSON.stringify(e) and on a throw fall
back to String(e).  The result is Option String: some s is the returned
string, none is the value undefined (which JSON.stringify yields for
undefined and functions and which the code returns unchanged). -/
def getErrorMessage (e : JsValue) : Option String :=
  match e with
  | JsValue.errorV m => some m
  | JsValue.stringV s => some s
  | _ =>
    match stringifyJs e with
    | Except.ok r => r
    | Except.error _ => some (jsToString e)

/-! ### calcDynamicSpread (index.ts lines 338-352) -/

structure SpreadResult where
  finalBp : ℤ
  sponsorAdj : String
  volAdj : String
deriving DecidableEq

/-- index.ts lines 338-352: multiply the base spread by the sponsor-pool
step factor and the volatility step factor, then round and clamp to
[5, 60] basis points. -/
def calcDynamicSpread (baseBp sponsorPool range1h : ℚ) : SpreadResult :=
  let sponsorStep : ℚ × String :=
    if sponsorPool > 2000 then (baseBp * (1/2), "-50%")
    else if sponsorPool > 1000 then (baseBp * (7/10), "-30%")
    else if sponsorPool > 500 then (baseBp * (85/100), "-15%")
    else (baseBp, "")
  let volStep : ℚ × String :=
    if range1h > 4 then (sponsorStep.1 * (14/10), "+40%")
    else if range1h > 2 then (sponsorStep.1 * (12/10), "+20%")
    else (sponsorStep.1, "")
  { finalBp := max 5 (min 60 (jsRound volStep.1))
    sponsorAdj := sponsorStep.2
    volAdj := volStep.2 }

/-! ### Category bonus and market score (index.ts lines 268-336) -/

def TIER1_KEYWORDS : List String :=
  ["Leavitt", "Leavitt say", "press briefing", "Joe Biden", "Historic", "AI",
   "Artificial Intelligence", "Elon Musk # tweets", "Elon Musk net worth",
   "Elon tweets", "5 Minute", "5 min Up or Down", "15 min", "this hour",
   "today temperature", "highest temperature", "S&P", "Dow Jones", "SPX",
   "Bitcoin ETF Flows", "XRP above"]

def TIER2_KEYWORDS : List String :=
  ["BTC", "ETH", "SOL", "Fed", "interest rates", "NBA", "NHL", "Champions League"]

def NEGATIVE_KEYWORDS : List String :=
  ["2028", "2029", "Democratic presidential", "Republican presidential",
   "Jesus Christ return", "Uzbekistan"]

/-- Does the character list needle occur at the head of hay. -/
def listStartsWith : List Char → List Char → Bool
  | [], _ => true
  | _ :: _, [] => false
  | n :: ns, h :: hs => (n = h) && listStartsWith ns hs

/-- Does the character list needle occur anywhere inside hay. -/
def listContainsSub (hay needle : List Char) : Bool :=
  match hay with
  | [] => needle.isEmpty
  | _ :: t => listStartsWith needle hay || listContainsSub t needle

/-- JS hay.toUpperCase().includes(needle.toUpperCase()): case-insensitive
substring containment, as used for every keyword match in index.ts. -/
def strIncludes (hay needle : String) : Bool :=
  listContainsSub (hay.data.map Char.toUpper) (needle.data.map Char.toUpper)

/-- The first Tier-1 keyword loop of getCategoryBonus (lines 290-297):
whether any Tier-1 keyword matches the title. -/
def tier1Hit (title : String) : Bool :=
  TIER1_KEYWORDS.any (fun kw => strIncludes title kw)

/-- The Tier-2 loop (lines 299-313): the first Tier-2 keyword matching the
title, if any. -/
def tier2Match (title : String) : Option String :=
  TIER2_KEYWORDS.find? (fun kw => strIncludes title kw)

/-- The negative-keyword loop (lines 320-326). -/
def negativeHit (title : String) : Bool :=
  NEGATIVE_KEYWORDS.any (fun kw => strIncludes title kw)

/-- Category label chosen for a matched Tier-2 keyword (lines 303-309). -/
def tier2Category (kw : String) : String :=
  if ["BTC", "ETH", "SOL"].any (fun k => kw.toUpper = k.toUpper) then "crypto/short-term"
  else if ["NBA", "NHL", "Champions League"].any (fun k => kw.toUpper = k.toUpper) then "sports"
  else "macro"

structure CategoryResult where
  bonus : ℤ
  category : String
  isTier1 : Bool
deriving DecidableEq

/-- index.ts lines 284-329, getCategoryBonus: the Tier-1 loop (break on
first hit), the Tier-2 loop (only when no Tier-1 hit; the first match fixes
the category), the sponsor bonus, and the negative-keyword penalty, applied
in that order. -/
def getCategoryBonus (title : String) (sponsorPool : ℚ) (aggressiveShortTerm : Bool) :
    CategoryResult :=
  let isTier1 := tier1Hit title
  let bonus1 : ℤ := if isTier1 then (if aggressiveShortTerm then 35000 else 17500) else 0
  let category1 := if isTier1 then "top-tier" else "other"
  let t2 := if isTier1 then none else tier2Match title
  let bonus2 : ℤ := bonus1 +
    (match t2 with
     | some _ => if aggressiveShortTerm then 18000 else 9000
     | none => 0)
  let category2 := match t2 with | some kw => tier2Category kw | none => category1
  let bonus3 : ℤ := bonus2 + (if sponsorPool > 0 then 8000 else 0)
  let category3 := if sponsorPool > 0 ∧ category2 = "other" then "sponsored" else category2
  let neg := negativeHit title
  let bonus4 : ℤ := bonus3 - (if neg then 15000 else 0)
  let category4 := if neg then "long-term" else category3
  ⟨bonus4, category4, isTier1⟩

/-- index.ts lines 331-336, scoreMarket: capped volume and depth, weighted
sum plus the category bonus, quadrupled for Tier-1 markets. -/
def scoreMarket (volume24h sponsorPool liquidityDepth categoryBonus : ℚ)
    (isTier1 : Bool) : ℚ :=
  let cappedVol := min volume24h 500000
  let cappedDepth := min liquidityDepth 50000
  let base := cappedVol * (3/100) + sponsorPool * 30 + cappedDepth * (8/10) + categoryBonus
  if isTier1 then base * 4 else base

/-- The coin-flip penalty of run_cycle (line 792-793). -/
def coinFlipPenalty (mid : ℚ) : ℚ := if |mid - 1/2| < 1/200 then -2000 else 0

/-- The wide-book penalty of run_cycle (lines 795-796): the inter-book
spread ratio is (ask - bid) / mid when both sides exist, else 0. -/
def wideSpreadPenalty (bestBid bestAsk mid : ℚ) : ℚ :=
  let bookSpread := if bestBid > 0 ∧ bestAsk > 0 then (bestAsk - bestBid) / mid else 0
  if bookSpread > 1/10 then -3000 else if bookSpread > 1/20 then -1000 else 0

/-- The shallow-book penalty of run_cycle (line 798). -/
def depthPenalty (liquidityDepth minLiquidityDepth : ℚ) : ℚ :=
  if liquidityDepth < minLiquidityDepth then -1500 else 0

/-- run_cycle lines 792-802: the composite score of an enriched market,
scoreMarket applied to the category bonus plus the three structural
penalties. -/
def compositeScore (title : String) (volume24h sponsorPool liquidityDepth
    bestBid bestAsk mid minLiquidityDepth : ℚ) (aggressiveShortTerm : Bool) : ℚ :=
  let cb := getCategoryBonus title sponsorPool aggressiveShortTerm
  scoreMarket volume24h sponsorPool liquidityDepth
    ((cb.bonus : ℚ) + coinFlipPenalty mid + wideSpreadPenalty bestBid bestAsk mid
      + depthPenalty liquidityDepth minLiquidityDepth)
    cb.isTier1

/-! ### run_cycle parameter defaulting and normalisation (index.ts lines 648-663) -/

/-- The request parameters of the run_cycle action; none models an absent
(undefined) field, some x an explicitly supplied value. -/
structure CycleParams where
  maxMarkets : Option ℚ := none
  spread : Option ℚ := none
  orderSize : Option ℚ := none
  maxPosition : Option ℚ := none
  minSponsorPool : Option ℚ := none
  minLiquidityDepth : Option ℚ := none
  minVolume24h : Option ℚ := none
  totalCapital : Option ℚ := none
  liveTrading : Option Bool := none
  useExternalOracle : Option Bool := none
  aggressiveShortTerm : Option Bool := none

/-- JS logical-OR defaulting (v || d) for a numeric parameter: an absent
value or the falsy number 0 both yield the default. -/
def jsOrNum (v : Option ℚ) (d : ℚ) : ℚ :=
  match v with
  | none => d
  | some x => if x = 0 then d else x

/-- JS logical-OR defaulting (v || d) for a boolean parameter: absent or
false both yield the default. -/
def jsOrBool (v : Option Bool) (d : Bool) : Bool :=
  match v with
  | none => d
  | some b => if b = false then d else b

/-- The defaulted parameter values of run_cycle, index.ts lines 648-659,
before the risk clamps.  maxPositionRaw is the value of the expression
params.maxPosition || 30 inside the Math.min of line 654. -/
structure CycleDefaults where
  maxMarkets : ℚ
  spread : ℚ
  orderSize : ℚ
  totalCapital : ℚ
  maxPositionRaw : ℚ
  minSponsorPool : ℚ
  minLiquidityDepth : ℚ
  minVolume24h : ℚ
  liveTrading : Bool
  useExternalOracle : Bool
  aggressiveShortTerm : Bool

/-- index.ts lines 648-659: seven numeric parameters are defaulted with ||,
minSponsorPool / liveTrading / aggressiveShortTerm with the nullish
operator, useExternalOracle with ||. -/
def applyDefaults (p : CycleParams) : CycleDefaults :=
  { maxMarkets := jsOrNum p.maxMarkets 12
    spread := jsOrNum p.spread 22
    orderSize := jsOrNum p.orderSize 6
    liveTrading := p.liveTrading.getD false
    totalCapital := jsOrNum p.totalCapital 65
    maxPositionRaw := jsOrNum p.maxPosition 30
    minSponsorPool := p.minSponsorPool.getD 0
    minLiquidityDepth := jsOrNum p.minLiquidityDepth 80
    minVolume24h := jsOrNum p.minVolume24h 1500
    useExternalOracle := jsOrBool p.useExternalOracle false
    aggressiveShortTerm := p.aggressiveShortTerm.getD true }

/-- The effective configuration of a cycle after the risk clamps. -/
structure CycleConfig where
  maxMarkets : ℚ
  baseBp : ℚ
  orderSize : ℚ
  totalCapital : ℚ
  maxPosition : ℚ
  minSponsorPool : ℚ
  minLiquidityDepth : ℚ
  minVolume24h : ℚ
  liveTrading : Bool
  aggressiveShortTerm : Bool

/-- index.ts lines 648-663: defaulting, then maxPosition is capped at
floor(0.48 times capital) (line 654) and orderSize at floor(0.08 times
capital) with a floor of 1 (lines 662-663). -/
def normalizeConfig (p : CycleParams) : CycleConfig :=
  let d := applyDefaults p
  let maxPosition := min d.maxPositionRaw ((⌊d.totalCapital * (48/100)⌋ : ℤ) : ℚ)
  let orderSize0 := min d.orderSize ((⌊d.totalCapital * (8/100)⌋ : ℤ) : ℚ)
  let orderSize := if orderSize0 < 1 then 1 else orderSize0
  { maxMarkets := d.maxMarkets
    baseBp := d.spread
    orderSize := orderSize
    totalCapital := d.totalCapital
    maxPosition := maxPosition
    minSponsorPool := d.minSponsorPool
    minLiquidityDepth := d.minLiquidityDepth
    minVolume24h := d.minVolume24h
    liveTrading := d.liveTrading
    aggressiveShortTerm := d.aggressiveShortTerm }

/-- run_cycle lines 730-733: the pre-enrichment volume filter keeps the
markets whose 24h volume is at least minVolume24h. -/
def volumePreFilter (volumes : List ℚ) (minVolume24h : ℚ) : List ℚ :=
  volumes.filter (fun vol => vol ≥ minVolume24h)

/-! ### Position auto-reset (index.ts lines 689-693) -/

/-- A row of the bot_positions table (the columns the engine reads). -/
structure BotPosition where
  market_id : String
  net_position : ℚ
deriving DecidableEq

/-- index.ts lines 689-693: the Supabase statement
update(net_position := 0).gt(net_position, maxPosition * 1.5) zeroes every
row whose net_position is strictly greater than 1.5 times maxPosition and
leaves every other row unchanged. -/
def autoResetPositions (positions : List BotPosition) (maxPosition : ℚ) :
    List BotPosition :=
  positions.map (fun p =>
    if p.net_position > maxPosition * (3/2) then { p with net_position := 0 } else p)

/-! ### Daily PnL row and the circuit breaker (index.ts lines 410-427, 697-714) -/

/-- A row of the bot_daily_pnl table for one UTC date. -/
structure DailyPnlRow where
  realized_pnl : ℚ
  total_capital : ℚ
  trade_count : ℕ
  circuit_breaker_triggered : Bool
deriving DecidableEq

/-- index.ts lines 416-427, upsertDailyPnl: combines the existing row of
the current date (none when the date has no row yet) with the deltas; the
stored breaker flag is the OR of the argument and the existing flag. -/
def upsertDailyPnl (existing : Option DailyPnlRow) (pnl totalCapital : ℚ)
    (tradeCount : ℕ) (circuitBreaker : Bool) : DailyPnlRow :=
  { realized_pnl := (existing.map (fun r => r.realized_pnl)).getD 0 + pnl
    total_capital := totalCapital
    trade_count := (existing.map (fun r => r.trade_count)).getD 0 + tradeCount
    circuit_breaker_triggered :=
      circuitBreaker || (existing.map (fun r => r.circuit_breaker_triggered)).getD false }

/-- The response fields of a run_cycle invocation that the claims inspect;
the normal path of the handler does not set circuitBreaker, which a JSON
consumer reads as false. -/
structure CycleResult where
  ordersPlaced : ℕ
  circuitBreaker : Bool
deriving DecidableEq

/-- index.ts lines 697-714: the circuit-breaker gate of run_cycle and the
skeleton of the rest of the cycle.  dailyPnl is today's stored row (none
when absent), quotedOrders the number of orders the quoting loop would
place when the gate lets the cycle proceed.  Returns the response and the
persisted row after the cycle. -/
def runCycleOutcome (dailyPnl : Option DailyPnlRow) (totalCapital : ℚ)
    (quotedOrders : ℕ) : CycleResult × Option DailyPnlRow :=
  if (dailyPnl.map (fun r => r.circuit_breaker_triggered)).getD false then
    (⟨0, true⟩, dailyPnl)
  else if (dailyPnl.map (fun r => r.realized_pnl)).getD 0 < -(totalCapital * (3/100)) then
    (⟨0, true⟩, some (upsertDailyPnl dailyPnl 0 totalCapital 0 true))
  else
    (⟨quotedOrders, false⟩, dailyPnl)

/-! ### Tick helpers and inventory skew (index.ts lines 125-131, 354-387, 429-432) -/

/-- index.ts lines 125-127: Math.floor(price / tick) * tick. -/
def floorToTick (price tick : ℚ) : ℚ := (⌊price / tick⌋ : ℚ) * tick

/-- index.ts lines 129-131: Math.ceil(price / tick) * tick. -/
def ceilToTick (price tick : ℚ) : ℚ := (⌈price / tick⌉ : ℚ) * tick

/-- JS Number(x.toFixed(d)): round to d decimal places, half towards plus
infinity. -/
def toFixedNum (d : ℕ) (x : ℚ) : ℚ := (jsRound (x * (10 : ℚ) ^ d) : ℚ) / (10 : ℚ) ^ d

/-- index.ts lines 429-432: an existing order is within tolerance of the
target when the absolute price difference is at most toleranceBp / 10000
(the call sites use the default tolerance of 0.5 bp). -/
def isWithinTolerance (existingPrice targetPrice toleranceBp : ℚ) : Bool :=
  |existingPrice - targetPrice| ≤ toleranceBp / 10000

structure SkewResult where
  buyPrice : ℚ
  sellPrice : ℚ
  buySize : ℚ
  sellSize : ℚ
  pauseBuy : Bool
  pauseSell : Bool
  skewLabel : String

/-- index.ts lines 354-387, applySkew: above the 0.6 threshold shade both
prices down and halve the buy size (floor 2), below the negative threshold
symmetrically; beyond the full cap pause the corresponding side; finally
clamp both prices into [minPrice, maxPrice].  The interpolated numbers of
the source's label strings are dropped (nothing reads them). -/
def applySkew (buyPrice sellPrice orderSize netPos maxPos baseBp
    minPrice maxPrice : ℚ) : SkewResult :=
  let spreadDecimal := baseBp / 10000
  let threshold := maxPos * (6/10)
  let base : SkewResult :=
    if netPos > threshold then
      { buyPrice := buyPrice - spreadDecimal * (1/2)
        sellPrice := sellPrice - spreadDecimal * (3/10)
        buySize := max 2 ((jsRound (orderSize * (1/2)) : ℚ))
        sellSize := orderSize
        pauseBuy := false
        pauseSell := false
        skewLabel := "LONG heavy" }
    else if netPos < -threshold then
      { buyPrice := buyPrice + spreadDecimal * (3/10)
        sellPrice := sellPrice + spreadDecimal * (1/2)
        buySize := orderSize
        sellSize := max 2 ((jsRound (orderSize * (1/2)) : ℚ))
        pauseBuy := false
        pauseSell := false
        skewLabel := "SHORT heavy" }
    else
      { buyPrice := buyPrice, sellPrice := sellPrice
        buySize := orderSize, sellSize := orderSize
        pauseBuy := false, pauseSell := false, skewLabel := "none" }
  let afterBuyPause :=
    if netPos > maxPos then { base with pauseBuy := true, skewLabel := "PAUSED BUY" }
    else base
  let afterPauses :=
    if netPos < -maxPos then { afterBuyPause with pauseSell := true, skewLabel := "PAUSED SELL" }
    else afterBuyPause
  { afterPauses with
    buyPrice := max minPrice (min maxPrice afterPauses.buyPrice)
    sellPrice := max minPrice (min maxPrice afterPauses.sellPrice) }

/-! ### Per-market quoting and live reconciliation (index.ts lines 868-1122) -/

/-- The per-market inputs of the quoting loop that the quote computation
reads.  decimals is the number of decimal places of the tick size string
(line 980). -/
structure MarketInput where
  tokenId : String
  mid : ℚ
  range1h : ℚ
  sponsorPool : ℚ
  tickSize : ℚ
  decimals : ℕ

/-- Everything the market loop derives before touching orders. -/
structure QuotePlan where
  dynamicBp : ℤ
  pauseBuy : Bool
  pauseSell : Bool
  buySize : ℚ
  sellSize : ℚ
  safeBuyPrice : ℚ
  safeSellPrice : ℚ
  skipped : Bool

/-- index.ts lines 868-999: dynamic spread, near-certain cap and one-sided
pause, base prices, inventory skew, near-certain pause override, clamping
and tick alignment of the live prices, and the invalid-grid skip test. -/
def planQuote (baseBp orderSize maxPosition : ℚ) (m : MarketInput) (netPos : ℚ) :
    QuotePlan :=
  let minPrice := m.tickSize
  let maxPrice := max minPrice (1 - m.tickSize)
  let spread := calcDynamicSpread baseBp m.sponsorPool m.range1h
  let onlyBuy := m.mid > 92/100
  let onlySell := m.mid < 8/100
  let dynamicBp : ℤ := if onlyBuy || onlySell then min spread.finalBp 5 else spread.finalBp
  let spreadDecimal : ℚ := (dynamicBp : ℚ) / 10000
  let rawBuyPrice := m.mid - spreadDecimal
  let rawSellPrice := m.mid + spreadDecimal
  let skew := applySkew rawBuyPrice rawSellPrice orderSize netPos maxPosition
    (dynamicBp : ℚ) minPrice maxPrice
  let pauseBuy := skew.pauseBuy || onlySell
  let pauseSell := skew.pauseSell || onlyBuy
  let safeBuyPrice :=
    toFixedNum m.decimals (floorToTick (max minPrice (min maxPrice skew.buyPrice)) m.tickSize)
  let safeSellPrice :=
    toFixedNum m.decimals (ceilToTick (max minPrice (min maxPrice skew.sellPrice)) m.tickSize)
  { dynamicBp := dynamicBp
    pauseBuy := pauseBuy
    pauseSell := pauseSell
    buySize := skew.buySize
    sellSize := skew.sellSize
    safeBuyPrice := safeBuyPrice
    safeSellPrice := safeSellPrice
    skipped := !pauseBuy && !pauseSell && decide (safeBuyPrice ≥ safeSellPrice) }

/-- Paper mode (lines 940-977): an order intention is recorded for a side
exactly when that side is not paused; first component BUY, second SELL. -/
def paperPlacesOrders (plan : QuotePlan) : Bool × Bool :=
  (!plan.pauseBuy, !plan.pauseSell)

/-- An open order as returned by the venue and consumed by reconciliation. -/
structure OpenOrder where
  id : String
  asset_id : String
  side : String
  price : ℚ
  size : ℚ
deriving DecidableEq

/-- The per-order effects the reconciler issues against the venue. -/
inductive OrderAction where
  | keep (orderId : String)
  | cancel (orderId : String)
  | place (price size : ℚ)
deriving DecidableEq

/-- index.ts lines 1002-1060 (and symmetrically 1063-1121): on a paused
side cancel every existing order and place nothing; otherwise keep the
first existing order when it is within 0.5 bp of the target, else cancel
it (when present) and place a GTC order at the target, and cancel every
remaining duplicate. -/
def reconcileSide (paused : Bool) (existing : List OpenOrder)
    (targetPrice targetSize : ℚ) : List OrderAction :=
  if paused then existing.map (fun o => OrderAction.cancel o.id)
  else
    match existing with
    | [] => [OrderAction.place targetPrice targetSize]
    | first :: rest =>
      if isWithinTolerance first.price targetPrice (1/2) then
        OrderAction.keep first.id :: rest.map (fun o => OrderAction.cancel o.id)
      else
        OrderAction.cancel first.id :: OrderAction.place targetPrice targetSize ::
          rest.map (fun o => OrderAction.cancel o.id)

/-- index.ts lines 994-996: the open orders of this market's token on the
BUY side. -/
def buyFilter (tokenId : String) (o : OpenOrder) : Bool :=
  o.asset_id = tokenId && (o.side = "BUY" || o.side = "buy")

/-- index.ts lines 997-999: the open orders of this market's token on the
SELL side. -/
def sellFilter (tokenId : String) (o : OpenOrder) : Bool :=
  o.asset_id = tokenId && (o.side = "SELL" || o.side = "sell")

/-- The live-mode outcome for one market: skipped on an invalid grid,
otherwise the BUY-side and SELL-side action lists. -/
inductive MarketActions where
  | skipped
  | acted (buyActions sellActions : List OrderAction)

/-- index.ts lines 868-1122, live branch: plan the quote, skip the market
when the aligned grid is invalid, otherwise reconcile both sides against
the open orders of this token. -/
def processMarket (baseBp orderSize maxPosition : ℚ) (m : MarketInput)
    (netPos : ℚ) (existingOrders : List OpenOrder) : MarketActions :=
  let plan := planQuote baseBp orderSize maxPosition m netPos
  if plan.skipped then MarketActions.skipped
  else
    MarketActions.acted
      (reconcileSide plan.pauseBuy (existingOrders.filter (buyFilter m.tokenId))
        plan.safeBuyPrice plan.buySize)
      (reconcileSide plan.pauseSell (existingOrders.filter (sellFilter m.tokenId))
        plan.safeSellPrice plan.sellSize)

def marketBuyActions : MarketActions → List OrderAction
  | MarketActions.skipped => []
  | MarketActions.acted b _ => b

def marketSellActions : MarketActions → List OrderAction
  | MarketActions.skipped => []
  | MarketActions.acted _ s => s

def actionIsPlace : OrderAction → Bool
  | OrderAction.place _ _ => true
  | _ => false

/-- Number of placements a market's live reconciliation issues. -/
def marketPlaceCount (r : MarketActions) : ℕ :=
  ((marketBuyActions r).filter actionIsPlace).length +
    ((marketSellActions r).filter actionIsPlace).length

/-- The venue-side effect of executing an action list when every call
succeeds: a cancel removes the order with that id, a placement appends the
venue's new order (newOrder p s is the order the venue creates for a
placement at price p and size s), keeping changes nothing. -/
def applyActions (newOrder : ℚ → ℚ → OpenOrder) (existing : List OpenOrder)
    (acts : List OrderAction) : List OpenOrder :=
  acts.foldl (fun st a =>
    match a with
    | OrderAction.keep _ => st
    | OrderAction.cancel oid => st.filter (fun o => o.id ≠ oid)
    | OrderAction.place p s => st ++ [newOrder p s]) existing

/-! ### The cycle driver (useBotState.ts, runCycle lines 189-252) -/

/-- The driver's refs: the in-flight flag and the timestamp of the last
overlap warning (ms). -/
structure DriverState where
  inFlight : Bool
  lastOverlapLogAt : ℤ
deriving DecidableEq

/-- What a timer tick did. -/
inductive TickOutcome where
  | skipped (warned : Bool)
  | executed (bodyFailed : Bool)
deriving DecidableEq

/-- The driver sets the in-flight flag before awaiting the cycle body
(useBotState.ts line 199). -/
def cycleBegin (s : DriverState) : DriverState := { s with inFlight := true }

/-- The finally block clears the in-flight flag on every exit path of the
body, error or not (useBotState.ts lines 249-251). -/
def cycleFinish (s : DriverState) : DriverState := { s with inFlight := false }

/-- useBotState.ts lines 189-252, runCycle: a tick that fires while a cycle
is in flight returns immediately, warning only when more than 15000 ms
have passed since the last overlap warning (and then records the warning
time); otherwise the cycle body runs (bodyFailed says whether it threw)
between cycleBegin and the finally release cycleFinish. -/
def runCycleTick (s : DriverState) (now : ℤ) (bodyFailed : Bool) :
    TickOutcome × DriverState :=
  if s.inFlight then
    if now - s.lastOverlapLogAt > 15000 then
      (TickOutcome.skipped true, { s with lastOverlapLogAt := now })
    else
      (TickOutcome.skipped false, s)
  else
    (TickOutcome.executed bodyFailed, cycleFinish (cycleBegin s))

/-! ## Claim theorems -/

/-- C5: for every base spread, sponsor pool and range1h, calcDynamicSpread
returns exactly round(baseBp * ms * mv) clamped into [5, 60], where ms is
0.5 / 0.7 / 0.85 / 1 by sponsor-pool bracket and mv is 1.4 / 1.2 / 1 by
range1h bracket; in particular the result is an integer in [5, 60]. -/
theorem calcDynamicSpread_spec (baseBp sponsorPool range1h : ℚ) :
    (calcDynamicSpread baseBp sponsorPool range1h).finalBp =
      max 5 (min 60 (jsRound (baseBp *
        (if sponsorPool > 2000 then 1/2
         else if sponsorPool > 1000 then 7/10
         else if sponsorPool > 500 then 85/100 else 1) *
        (if range1h > 4 then 14/10 else if range1h > 2 then 12/10 else 1)))) ∧
    5 ≤ (calcDynamicSpread baseBp sponsorPool range1h).finalBp ∧
    (calcDynamicSpread baseBp sponsorPool range1h).finalBp ≤ 60 := by
  refine ⟨?_, le_max_left _ _, max_le (by norm_num) (min_le_left _ _)⟩
  unfold calcDynamicSpread
  split_ifs <;> simp [mul_one]

/-- The run_cycle request in which every ||-defaulted numeric parameter is
the explicit falsy value 0 and the nullish-defaulted booleans are the
explicit value false. -/
def falsyParams : CycleParams :=
  { maxMarkets := some 0, spread := some 0, orderSize := some 0,
    maxPosition := some 0, minSponsorPool := some 0, minLiquidityDepth := some 0,
    minVolume24h := some 0, totalCapital := some 0,
    liveTrading := some false, aggressiveShortTerm := some false }

/-- C10: maxMarkets, spread, orderSize, minLiquidityDepth, minVolume24h,
totalCapital and maxPosition are defaulted with the logical OR, so an
explicit 0 is replaced by the defaults 12, 22, 6, 80, 1500, 65 and 30; in
particular minVolume24h = 0 restores the 1500 volume threshold rather than
disabling the pre-filter.  minSponsorPool, liveTrading and
aggressiveShortTerm use nullish defaulting and keep their explicit falsy
values. -/
theorem run_cycle_param_defaulting :
    (applyDefaults falsyParams).maxMarkets = 12 ∧
    (applyDefaults falsyParams).spread = 22 ∧
    (applyDefaults falsyParams).orderSize = 6 ∧
    (applyDefaults falsyParams).minLiquidityDepth = 80 ∧
    (applyDefaults falsyParams).minVolume24h = 1500 ∧
    (applyDefaults falsyParams).totalCapital = 65 ∧
    (applyDefaults falsyParams).maxPositionRaw = 30 ∧
    (applyDefaults falsyParams).minSponsorPool = 0 ∧
    (applyDefaults falsyParams).liveTrading = false ∧
    (applyDefaults falsyParams).aggressiveShortTerm = false ∧
    volumePreFilter [1000, 1500] (applyDefaults falsyParams).minVolume24h = [1500] := by
  norm_num [applyDefaults, jsOrNum, jsOrBool, falsyParams, volumePreFilter]

/-- C9 counterexample: the thrown value undefined is neither an Error nor a
string, and JSON.stringify(undefined) is undefined, so getErrorMessage
returns undefined rather than a string, refuting the claim that it never
returns undefined. -/
theorem getErrorMessage_undefined_counterexample :
    getErrorMessage JsValue.undefinedV = none := rfl

/-- C9 amended: getErrorMessage returns the message for Error instances and
the string itself for strings, and it returns a defined string for every
input except undefined and function values (on which JSON.stringify yields
undefined, which the helper passes through). -/
theorem getErrorMessage_amended :
    (∀ m, getErrorMessage (JsValue.errorV m) = some m) ∧
    (∀ s, getErrorMessage (JsValue.stringV s) = some s) ∧
    (∀ v : JsValue, v ≠ JsValue.undefinedV → v ≠ JsValue.funcV →
      (getErrorMessage v).isSome = true) := by
  refine ⟨fun m => rfl, fun s => rfl, ?_⟩
  intro v hu hf
  cases v with
  | errorV m => rfl
  | stringV s => rfl
  | numberV n => rfl
  | boolV b => rfl
  | nullV => rfl
  | undefinedV => exact absurd rfl hu
  | funcV => exact absurd rfl hf
  | circularV => rfl
  | objectV fields =>
    cases h : stringifyFields fields with
    | error e => simp [getErrorMessage, stringifyJs, h]
    | ok parts => simp [getErrorMessage, stringifyJs, h]

/-- C9 witness: the amended theorem applied to the value null. -/
theorem getErrorMessage_amended_witness :
    (getErrorMessage JsValue.nullV).isSome = true :=
  getErrorMessage_amended.2.2 JsValue.nullV
    (fun h => JsValue.noConfusion h) (fun h => JsValue.noConfusion h)

/-- C8: a tick that fires while a cycle is in flight executes no cycle work
(it is skipped and the flag stays set), so of two overlapping invocations
exactly one executes; the overlap warning is emitted exactly when more than
15000 ms have passed since the previous warning; and the in-flight flag is
cleared on every exit path of an executed cycle, error paths included. -/
theorem overlap_guard (s : DriverState) (now nowB : ℤ) (f fB : Bool)
    (h : s.inFlight = false) :
    (runCycleTick s now f).1 = TickOutcome.executed f ∧
    (runCycleTick (cycleBegin s) nowB fB).1 =
      TickOutcome.skipped (decide (nowB - s.lastOverlapLogAt > 15000)) ∧
    ((runCycleTick (cycleBegin s) nowB fB).2).inFlight = true ∧
    (runCycleTick s now f).2.inFlight = false ∧
    (runCycleTick s now true).2.inFlight = false := by
  by_cases hw : nowB - s.lastOverlapLogAt > 15000 <;>
    simp [runCycleTick, cycleBegin, cycleFinish, h, hw]

/-- C8 witness: the overlap-guard theorem at an idle driver state, a first
tick, and an overlapping tick 20 seconds after the last warning. -/
theorem overlap_guard_witness :
    (runCycleTick ⟨false, 0⟩ 1000 false).1 = TickOutcome.executed false ∧
    (runCycleTick (cycleBegin ⟨false, 0⟩) 20000 true).1 =
      TickOutcome.skipped (decide ((20000 : ℤ) - (0 : ℤ) > 15000)) ∧
    ((runCycleTick (cycleBegin ⟨false, 0⟩) 20000 true).2).inFlight = true ∧
    (runCycleTick ⟨false, 0⟩ 1000 false).2.inFlight = false ∧
    (runCycleTick ⟨false, 0⟩ 1000 true).2.inFlight = false :=
  overlap_guard ⟨false, 0⟩ 1000 20000 false true rfl

/-- C1 counterexample: with total capital 100 and today's realized PnL
exactly -3 (equal to -3 percent of capital) and the stored flag false, the
gate condition realized_pnl < -(capital * 0.03) is strictly false, so the
cycle proceeds: the response carries circuitBreaker = false (the claim
requires true whenever realized PnL is less than OR EQUAL to -3 percent)
and the quoting loop runs (here placing 4 orders). -/
theorem circuit_breaker_counterexample :
    ((-3 : ℚ) ≤ -((100 : ℚ) * (3/100))) ∧
    (runCycleOutcome (some ⟨-3, 100, 0, false⟩) 100 4).1.circuitBreaker = false ∧
    (runCycleOutcome (some ⟨-3, 100, 0, false⟩) 100 4).1.ordersPlaced = 4 := by
  norm_num [runCycleOutcome]

/-- C1 amended: if today's stored row already has the breaker flag set, or
its realized PnL is STRICTLY below -3 percent of total capital, the cycle
places no orders, returns ordersPlaced = 0 and circuitBreaker = true, the
persisted flag is (or becomes) true, and no later upsert for the same date
ever resets a true flag to false. -/
theorem circuit_breaker_amended (dailyPnl : Option DailyPnlRow)
    (totalCapital : ℚ) (quotedOrders : ℕ)
    (h : (dailyPnl.map (fun r => r.circuit_breaker_triggered)).getD false = true ∨
         (dailyPnl.map (fun r => r.realized_pnl)).getD 0 < -(totalCapital * (3/100))) :
    (runCycleOutcome dailyPnl totalCapital quotedOrders).1.ordersPlaced = 0 ∧
    (runCycleOutcome dailyPnl totalCapital quotedOrders).1.circuitBreaker = true ∧
    (((runCycleOutcome dailyPnl totalCapital quotedOrders).2).map
        (fun r => r.circuit_breaker_triggered)).getD false = true ∧
    (∀ (e : DailyPnlRow) (pnl cap : ℚ) (tc : ℕ) (cb : Bool),
        e.circuit_breaker_triggered = true →
        (upsertDailyPnl (some e) pnl cap tc cb).circuit_breaker_triggered = true) := by
  refine ⟨?_, ?_, ?_, fun e pnl cap tc cb he => by simp [upsertDailyPnl, he]⟩ <;>
  · by_cases hf : (dailyPnl.map (fun r => r.circuit_breaker_triggered)).getD false = true
    · simp [runCycleOutcome, hf]
    · rcases h with h | h
      · exact absurd h hf
      · simp [runCycleOutcome, hf, h, upsertDailyPnl]

/-- C1 witness: the amended theorem on a day whose realized PnL -5 is
strictly below -1.95, three percent of the capital 65. -/
theorem circuit_breaker_amended_witness :
    (runCycleOutcome (some ⟨-5, 65, 3, false⟩) 65 9).1.ordersPlaced = 0 ∧
    (runCycleOutcome (some ⟨-5, 65, 3, false⟩) 65 9).1.circuitBreaker = true ∧
    (((runCycleOutcome (some ⟨-5, 65, 3, false⟩) 65 9).2).map
        (fun r => r.circuit_breaker_triggered)).getD false = true ∧
    (∀ (e : DailyPnlRow) (pnl cap : ℚ) (tc : ℕ) (cb : Bool),
        e.circuit_breaker_triggered = true →
        (upsertDailyPnl (some e) pnl cap tc cb).circuit_breaker_triggered = true) :=
  circuit_breaker_amended (some ⟨-5, 65, 3, false⟩) 65 9 (Or.inr (by norm_num))

/-- C2 counterexample: with totalCapital = 10 the cap floor(0.08 * 10) is
0, and the normalized order size is bumped to the minimum 1, so the
claimed bound orderSize <= floor(0.08 * capital) fails. -/
theorem order_size_cap_counterexample :
    (normalizeConfig { totalCapital := some 10 }).orderSize = 1 ∧
    ((⌊(normalizeConfig { totalCapital := some 10 }).totalCapital * (8/100)⌋ : ℤ) : ℚ) = 0 ∧
    ¬((normalizeConfig { totalCapital := some 10 }).orderSize ≤
        ((⌊(normalizeConfig { totalCapital := some 10 }).totalCapital * (8/100)⌋ : ℤ) : ℚ)) := by
  norm_num [normalizeConfig, applyDefaults, jsOrNum]

/-- C2 amended: after normalization the effective order size is at least 1
and at most max 1 (floor(0.08 * capital)) (the 8-percent cap can only be
exceeded when that cap is below the hard minimum of 1), and the effective
max position never exceeds floor(0.48 * capital). -/
theorem config_normalization_amended (p : CycleParams) :
    1 ≤ (normalizeConfig p).orderSize ∧
    (normalizeConfig p).orderSize ≤
      max 1 ((⌊(normalizeConfig p).totalCapital * (8/100)⌋ : ℤ) : ℚ) ∧
    (normalizeConfig p).maxPosition ≤
      ((⌊(normalizeConfig p).totalCapital * (48/100)⌋ : ℤ) : ℚ) := by
  unfold normalizeConfig
  dsimp only
  refine ⟨?_, ?_, min_le_right _ _⟩ <;>
  · by_cases h :
      min (applyDefaults p).orderSize ((⌊(applyDefaults p).totalCapital * (8/100)⌋ : ℤ) : ℚ) < 1
    · simp [h]
    · simp only [h, if_false]
      first
      | exact not_lt.mp h
      | exact le_trans (min_le_right _ _) (le_max_right _ _)

/-- C3 counterexample: a stored position of -100 with maxPosition 30 has
magnitude 100, far above 1.5 * 30 = 45, yet the auto-reset (which only
tests net_position > 45) leaves it untouched, refuting the claim that
every position whose magnitude exceeds the bound is zeroed. -/
theorem auto_reset_counterexample :
    |(-100 : ℚ)| > 30 * (3/2) ∧
    autoResetPositions [⟨"m1", -100⟩] 30 = [⟨"m1", -100⟩] ∧
    (-100 : ℚ) ≠ 0 := by
  norm_num [autoResetPositions]

/-- C3 amended: the auto-repair zeroes exactly the stored positions whose
signed net_position strictly exceeds 1.5 * max_position; every other
position, including negative positions of arbitrary magnitude, is left
unchanged. -/
theorem auto_reset_amended (ps : List BotPosition) (M : ℚ) :
    (autoResetPositions ps M).length = ps.length ∧
    ∀ (i : ℕ) (h1 : i < ps.length) (h2 : i < (autoResetPositions ps M).length),
      (autoResetPositions ps M).get ⟨i, h2⟩ =
        (if (ps.get ⟨i, h1⟩).net_position > M * (3/2)
         then { ps.get ⟨i, h1⟩ with net_position := 0 }
         else ps.get ⟨i, h1⟩) := by
  constructor
  · simp [autoResetPositions]
  · intro i h1 h2
    simp [autoResetPositions]

/-- C3 witness: the amended theorem applied to a single stored position of
100 with maxPosition 30; the position exceeds 45 and is zeroed. -/
theorem auto_reset_amended_witness :
    (autoResetPositions [⟨"m1", 100⟩] 30).get
        ⟨0, by simp [autoResetPositions]⟩ = (⟨"m1", 0⟩ : BotPosition) := by
  have h := (auto_reset_amended [⟨"m1", 100⟩] 30).2 0 (by simp)
    (by simp [autoResetPositions])
  norm_num at h
  exact h

lemma applySkew_pauseBuy_of_pos (buyPrice sellPrice orderSize netPos maxPos baseBp
    minPrice maxPrice : ℚ) (h : netPos > maxPos) :
    (applySkew buyPrice sellPrice orderSize netPos maxPos baseBp
      minPrice maxPrice).pauseBuy = true := by
  unfold applySkew
  split_ifs <;> rfl

lemma applySkew_pauseSell_of_neg (buyPrice sellPrice orderSize netPos maxPos baseBp
    minPrice maxPrice : ℚ) (h : netPos < -maxPos) :
    (applySkew buyPrice sellPrice orderSize netPos maxPos baseBp
      minPrice maxPrice).pauseSell = true := by
  unfold applySkew
  split_ifs <;> rfl

lemma planQuote_pauseBuy_of_pos (baseBp orderSize maxPosition : ℚ) (m : MarketInput)
    (netPos : ℚ) (h : netPos > maxPosition) :
    (planQuote baseBp orderSize maxPosition m netPos).pauseBuy = true := by
  unfold planQuote
  dsimp only
  rw [applySkew_pauseBuy_of_pos _ _ _ _ _ _ _ _ h]
  rfl

lemma planQuote_pauseSell_of_neg (baseBp orderSize maxPosition : ℚ) (m : MarketInput)
    (netPos : ℚ) (h : netPos < -maxPosition) :
    (planQuote baseBp orderSize maxPosition m netPos).pauseSell = true := by
  unfold planQuote
  dsimp only
  rw [applySkew_pauseSell_of_neg _ _ _ _ _ _ _ _ h]
  rfl

lemma reconcileSide_paused (existing : List OpenOrder) (tp ts : ℚ) :
    reconcileSide true existing tp ts = existing.map (fun o => OrderAction.cancel o.id) := by
  simp [reconcileSide]

lemma planQuote_skipped_eq (baseBp orderSize maxPosition : ℚ) (m : MarketInput)
    (netPos : ℚ) :
    (planQuote baseBp orderSize maxPosition m netPos).skipped =
      (!(planQuote baseBp orderSize maxPosition m netPos).pauseBuy &&
       !(planQuote baseBp orderSize maxPosition m netPos).pauseSell &&
       decide ((planQuote baseBp orderSize maxPosition m netPos).safeBuyPrice ≥
               (planQuote baseBp orderSize maxPosition m netPos).safeSellPrice)) := rfl

lemma processMarket_buy_of_pauseBuy (baseBp orderSize maxPosition : ℚ)
    (m : MarketInput) (netPos : ℚ) (existingOrders : List OpenOrder)
    (h : (planQuote baseBp orderSize maxPosition m netPos).pauseBuy = true) :
    marketBuyActions (processMarket baseBp orderSize maxPosition m netPos existingOrders) =
      (existingOrders.filter (buyFilter m.tokenId)).map (fun o => OrderAction.cancel o.id) := by
  have hsk : (planQuote baseBp orderSize maxPosition m netPos).skipped = false := by
    rw [planQuote_skipped_eq, h]
    simp
  simp [processMarket, hsk, h, marketBuyActions, reconcileSide_paused]

lemma processMarket_sell_of_pauseSell (baseBp orderSize maxPosition : ℚ)
    (m : MarketInput) (netPos : ℚ) (existingOrders : List OpenOrder)
    (h : (planQuote baseBp orderSize maxPosition m netPos).pauseSell = true) :
    marketSellActions (processMarket baseBp orderSize maxPosition m netPos existingOrders) =
      (existingOrders.filter (sellFilter m.tokenId)).map (fun o => OrderAction.cancel o.id) := by
  have hsk : (planQuote baseBp orderSize maxPosition m netPos).skipped = false := by
    rw [planQuote_skipped_eq, h]
    simp
  simp [processMarket, hsk, h, marketSellActions, reconcileSide_paused]

/-- C4: for every quoted market, if the net position exceeds max_position
then the BUY side is paused: no BUY is placed in live mode, every resting
BUY order of the token is cancelled, and paper mode records no BUY
intention; symmetrically for a position below -max_position on the SELL
side. -/
theorem inventory_pause_no_orders (baseBp orderSize maxPosition : ℚ)
    (m : MarketInput) (netPos : ℚ) (existingOrders : List OpenOrder) :
    (netPos > maxPosition →
      (planQuote baseBp orderSize maxPosition m netPos).pauseBuy = true ∧
      (paperPlacesOrders (planQuote baseBp orderSize maxPosition m netPos)).1 = false ∧
      (∀ a ∈ marketBuyActions
          (processMarket baseBp orderSize maxPosition m netPos existingOrders),
        actionIsPlace a = false) ∧
      (∀ o ∈ existingOrders.filter (buyFilter m.tokenId),
        OrderAction.cancel o.id ∈ marketBuyActions
          (processMarket baseBp orderSize maxPosition m netPos existingOrders))) ∧
    (netPos < -maxPosition →
      (planQuote baseBp orderSize maxPosition m netPos).pauseSell = true ∧
      (paperPlacesOrders (planQuote baseBp orderSize maxPosition m netPos)).2 = false ∧
      (∀ a ∈ marketSellActions
          (processMarket baseBp orderSize maxPosition m netPos existingOrders),
        actionIsPlace a = false) ∧
      (∀ o ∈ existingOrders.filter (sellFilter m.tokenId),
        OrderAction.cancel o.id ∈ marketSellActions
          (processMarket baseBp orderSize maxPosition m netPos existingOrders))) := by
  constructor
  · intro h
    have hp := planQuote_pauseBuy_of_pos baseBp orderSize maxPosition m netPos h
    have hb := processMarket_buy_of_pauseBuy baseBp orderSize maxPosition m netPos
      existingOrders hp
    refine ⟨hp, by simp [paperPlacesOrders, hp], ?_, ?_⟩
    · intro a ha
      rw [hb] at ha
      obtain ⟨o, _, rfl⟩ := List.mem_map.mp ha
      rfl
    · intro o ho
      rw [hb]
      exact List.mem_map_of_mem _ ho
  · intro h
    have hp := planQuote_pauseSell_of_neg baseBp orderSize maxPosition m netPos h
    have hs := processMarket_sell_of_pauseSell baseBp orderSize maxPosition m netPos
      existingOrders hp
    refine ⟨hp, by simp [paperPlacesOrders, hp], ?_, ?_⟩
    · intro a ha
      rw [hs] at ha
      obtain ⟨o, _, rfl⟩ := List.mem_map.mp ha
      rfl
    · intro o ho
      rw [hs]
      exact List.mem_map_of_mem _ ho

lemma getCategoryBonus_isTier1 (t : String) (p : ℚ) (a : Bool) :
    (getCategoryBonus t p a).isTier1 = tier1Hit t := rfl

lemma getCategoryBonus_bonus_mono (t : String) (a : Bool) {p1 p2 : ℚ} (hp : p1 ≤ p2) :
    (getCategoryBonus t p1 a).bonus ≤ (getCategoryBonus t p2 a).bonus := by
  have hs : (if p1 > 0 then (8000 : ℤ) else 0) ≤ (if p2 > 0 then 8000 else 0) := by
    split_ifs with h1 h2
    · exact le_refl _
    · exact absurd (lt_of_lt_of_le h1 hp) h2
    · norm_num
    · exact le_refl _
  unfold getCategoryBonus
  dsimp only
  omega

lemma getCategoryBonus_tier1_bonus (t : String) (p : ℚ) (a : Bool)
    (h1 : tier1Hit t = true) (hn : negativeHit t = false) :
    (getCategoryBonus t p a).bonus =
      (if a then 35000 else 17500) + (if p > 0 then 8000 else 0) := by
  simp [getCategoryBonus, h1, hn]

lemma getCategoryBonus_tier2_bonus (t : String) (p : ℚ) (a : Bool)
    (h1 : tier1Hit t = false) (h2 : (tier2Match t).isSome = true)
    (hn : negativeHit t = false) :
    (getCategoryBonus t p a).bonus =
      (if a then 18000 else 9000) + (if p > 0 then 8000 else 0) := by
  obtain ⟨k, hk⟩ := Option.isSome_iff_exists.mp h2
  simp [getCategoryBonus, h1, hk, hn]

lemma penalty_sum_bounds (mid bb ba depth minD : ℚ) :
    -6500 ≤ coinFlipPenalty mid + wideSpreadPenalty bb ba mid + depthPenalty depth minD ∧
    coinFlipPenalty mid + wideSpreadPenalty bb ba mid + depthPenalty depth minD ≤ 0 := by
  unfold coinFlipPenalty wideSpreadPenalty depthPenalty
  dsimp only
  split_ifs <;> norm_num

/-- C6 counterexample: with a negative long-horizon keyword in both titles,
the Tier-1 market (title matching "Joe Biden" and "2028") scores strictly
LOWER than the otherwise identical Tier-2 market (title matching only
"BTC" plus "2028"): the times-4 multiplier amplifies the negative base, so
the claimed strict Tier-1 superiority fails. -/
theorem score_tier1_counterexample :
    tier1Hit "Joe Biden 2028" = true ∧
    tier1Hit "BTC 2028" = false ∧
    (tier2Match "BTC 2028").isSome = true ∧
    compositeScore "Joe Biden 2028" 1500 0 100 (45/100) (55/100) (1/2) 200 false <
      compositeScore "BTC 2028" 1500 0 100 (45/100) (55/100) (1/2) 200 false := by
  have h1 : tier1Hit "Joe Biden 2028" = true := by decide
  have h2 : negativeHit "Joe Biden 2028" = true := by decide
  have h3 : tier1Hit "BTC 2028" = false := by decide
  have h4 : tier2Match "BTC 2028" = some "BTC" := by decide
  have h5 : negativeHit "BTC 2028" = true := by decide
  have hbA : (getCategoryBonus "Joe Biden 2028" 0 false).bonus = 2500 := by
    norm_num [getCategoryBonus, h1, h2]
  have htA : (getCategoryBonus "Joe Biden 2028" 0 false).isTier1 = true := by
    rw [getCategoryBonus_isTier1, h1]
  have hbB : (getCategoryBonus "BTC 2028" 0 false).bonus = -6000 := by
    norm_num [getCategoryBonus, h3, h4, h5]
  have htB : (getCategoryBonus "BTC 2028" 0 false).isTier1 = false := by
    rw [getCategoryBonus_isTier1, h3]
  refine ⟨h1, h3, by rw [h4]; rfl, ?_⟩
  unfold compositeScore scoreMarket coinFlipPenalty wideSpreadPenalty depthPenalty
  dsimp only
  rw [hbA, htA, hbB, htB]
  norm_num

/-- C6 amended: holding the other inputs fixed, a larger sponsor pool never
decreases the composite score, and a larger 24h volume (within the 500000
cap) never decreases it; and a Tier-1 market scores strictly higher than an
otherwise identical market matching only a Tier-2 keyword PROVIDED neither
title matches a negative long-horizon keyword and the volume, pool and
depth inputs are nonnegative. -/
theorem score_monotone_tier_amended :
    (∀ (t : String) (vol depth bb ba mid minD : ℚ) (a : Bool) (p1 p2 : ℚ),
        p1 ≤ p2 →
        compositeScore t vol p1 depth bb ba mid minD a ≤
          compositeScore t vol p2 depth bb ba mid minD a) ∧
    (∀ (t : String) (pool depth bb ba mid minD : ℚ) (a : Bool) (v1 v2 : ℚ),
        v1 ≤ v2 → v2 ≤ 500000 →
        compositeScore t v1 pool depth bb ba mid minD a ≤
          compositeScore t v2 pool depth bb ba mid minD a) ∧
    (∀ (tA tB : String) (vol pool depth bb ba mid minD : ℚ) (a : Bool),
        0 ≤ vol → 0 ≤ pool → 0 ≤ depth →
        tier1Hit tA = true → negativeHit tA = false →
        tier1Hit tB = false → (tier2Match tB).isSome = true → negativeHit tB = false →
        compositeScore tB vol pool depth bb ba mid minD a <
          compositeScore tA vol pool depth bb ba mid minD a) := by
  refine ⟨?_, ?_, ?_⟩
  · intro t vol depth bb ba mid minD a p1 p2 hp
    have hb := getCategoryBonus_bonus_mono t a hp
    have hb' : ((getCategoryBonus t p1 a).bonus : ℚ) ≤ (getCategoryBonus t p2 a).bonus :=
      Int.cast_le.mpr hb
    have hm : p1 * 30 ≤ p2 * 30 := by linarith
    unfold compositeScore scoreMarket
    dsimp only
    rw [getCategoryBonus_isTier1, getCategoryBonus_isTier1]
    cases h : tier1Hit t
    · rw [if_neg (by simp), if_neg (by simp)]
      linarith
    · rw [if_pos rfl, if_pos rfl]
      linarith
  · intro t pool depth bb ba mid minD a v1 v2 hv _
    have hm : min v1 500000 * (3/100) ≤ min v2 500000 * (3/100) := by
      have := min_le_min hv (le_refl (500000 : ℚ))
      linarith
    unfold compositeScore scoreMarket
    dsimp only
    rw [getCategoryBonus_isTier1]
    cases h : tier1Hit t
    · rw [if_neg (by simp), if_neg (by simp)]
      linarith
    · rw [if_pos rfl, if_pos rfl]
      linarith
  · intro tA tB vol pool depth bb ba mid minD a hv hp hd h1A hnA h1B h2B hnB
    have hbA := getCategoryBonus_tier1_bonus tA pool a h1A hnA
    have hbB := getCategoryBonus_tier2_bonus tB pool a h1B h2B hnB
    obtain ⟨hPlo, hPhi⟩ := penalty_sum_bounds mid bb ba depth minD
    have hv' : (0 : ℚ) ≤ min vol 500000 := le_min hv (by norm_num)
    have hd' : (0 : ℚ) ≤ min depth 50000 := le_min hd (by norm_num)
    unfold compositeScore scoreMarket
    dsimp only
    rw [getCategoryBonus_isTier1, getCategoryBonus_isTier1, h1A, h1B, hbA, hbB]
    by_cases ha : a <;> by_cases hp0 : pool > 0 <;>
      simp only [ha, hp0, if_true, if_false, Bool.false_eq_true, if_neg] <;>
      push_cast <;> nlinarith [hv', hd', hPlo, hPhi, hp]

/-- C6 witness: the amended theorem's Tier-1 comparison applied to the
Tier-1 title containing S&P against the Tier-2 title containing BTC, with
identical nonnegative inputs and no negative keyword. -/
theorem score_monotone_tier_amended_witness :
    compositeScore "BTC price" 1000 50 200 (45/100) (55/100) (1/2) 80 true <
      compositeScore "S&P 500" 1000 50 200 (45/100) (55/100) (1/2) 80 true :=
  score_monotone_tier_amended.2.2 "S&P 500" "BTC price" 1000 50 200 (45/100) (55/100)
    (1/2) 80 true (by norm_num) (by norm_num) (by norm_num)
    (by decide) (by decide) (by decide) (by decide) (by decide)

lemma reconcileSide_keep (first : OpenOrder) (rest : List OpenOrder) (tp ts : ℚ)
    (h : isWithinTolerance first.price tp (1/2) = true) :
    reconcileSide false (first :: rest) tp ts =
      OrderAction.keep first.id :: rest.map (fun o => OrderAction.cancel o.id) := by
  unfold reconcileSide
  rw [if_neg (by simp)]
  dsimp only
  rw [if_pos h]

lemma isWithinTolerance_self (tp : ℚ) : isWithinTolerance tp tp (1/2) = true := by
  simp only [isWithinTolerance, sub_self, abs_zero, decide_eq_true_eq]
  norm_num

lemma applyActions_cancels (newO : ℚ → ℚ → OpenOrder) :
    ∀ (xs l : List OpenOrder),
      applyActions newO l (xs.map (fun o => OrderAction.cancel o.id)) =
        l.filter (fun q => decide (q.id ∉ xs.map (fun o => o.id))) := by
  intro xs
  induction xs with
  | nil => intro l; simp [applyActions]
  | cons x xt ih =>
    intro l
    have hstep : applyActions newO l ((x :: xt).map (fun o => OrderAction.cancel o.id)) =
        applyActions newO (l.filter (fun o => o.id ≠ x.id))
          (xt.map (fun o => OrderAction.cancel o.id)) := rfl
    rw [hstep, ih, List.filter_filter]
    congr 1
    funext q
    by_cases h : q.id = x.id <;> simp [h]

lemma filter_not_own_id (l : List OpenOrder) (xs : List OpenOrder)
    (hsub : ∀ q ∈ l, q.id ∈ xs.map (fun o => o.id)) :
    l.filter (fun q => decide (q.id ∉ xs.map (fun o => o.id))) = [] := by
  rw [List.filter_eq_nil_iff]
  intro q hq
  simpa using hsub q hq

/-- The resting orders on one side after the reconciliation actions have
all succeeded: a paused side ends empty, a kept order remains alone (its
duplicates cancelled), otherwise only the fresh order at the target. -/
def reconcilePostState (paused : Bool) (l : List OpenOrder) (tp ts : ℚ)
    (newO : ℚ → ℚ → OpenOrder) : List OpenOrder :=
  if paused then []
  else
    match l with
    | [] => [newO tp ts]
    | first :: _ =>
      if isWithinTolerance first.price tp (1/2) then [first] else [newO tp ts]

lemma reconcile_post (paused : Bool) (l : List OpenOrder) (tp ts : ℚ)
    (newO : ℚ → ℚ → OpenOrder)
    (hnodup : (l.map (fun o => o.id)).Nodup)
    (hfresh : ∀ p s, (newO p s).id ∉ l.map (fun o => o.id)) :
    applyActions newO l (reconcileSide paused l tp ts) =
      reconcilePostState paused l tp ts newO := by
  unfold reconcilePostState
  cases paused
  case true =>
    rw [if_pos rfl, reconcileSide_paused, applyActions_cancels]
    exact filter_not_own_id l l (fun q hq => List.mem_map_of_mem (fun o => o.id) hq)
  case false =>
    rw [if_neg (by simp)]
    cases l with
    | nil => rfl
    | cons first rest =>
      show _ =
        if isWithinTolerance first.price tp (1/2) then [first] else [newO tp ts]
      rw [List.map_cons, List.nodup_cons] at hnodup
      obtain ⟨hfid, hrest⟩ := hnodup
      by_cases ht : isWithinTolerance first.price tp (1/2) = true
      · rw [reconcileSide_keep first rest tp ts ht]
        have hstep : applyActions newO (first :: rest)
            (OrderAction.keep first.id :: rest.map (fun o => OrderAction.cancel o.id)) =
            applyActions newO (first :: rest)
              (rest.map (fun o => OrderAction.cancel o.id)) := rfl
        rw [hstep, applyActions_cancels, if_pos ht]
        rw [List.filter_cons_of_pos (by simpa using hfid)]
        rw [filter_not_own_id rest rest
          (fun q hq => List.mem_map_of_mem (fun o => o.id) hq)]
      · have hacts : reconcileSide false (first :: rest) tp ts =
            OrderAction.cancel first.id :: OrderAction.place tp ts ::
              rest.map (fun o => OrderAction.cancel o.id) := by
          unfold reconcileSide
          rw [if_neg (by simp)]
          dsimp only
          rw [if_neg ht]
        rw [hacts]
        have hstep : applyActions newO (first :: rest)
            (OrderAction.cancel first.id :: OrderAction.place tp ts ::
              rest.map (fun o => OrderAction.cancel o.id)) =
            applyActions newO
              (((first :: rest).filter (fun o => o.id ≠ first.id)) ++ [newO tp ts])
              (rest.map (fun o => OrderAction.cancel o.id)) := rfl
        rw [hstep, applyActions_cancels, if_neg ht, List.filter_append]
        have h1 : ((first :: rest).filter (fun o => o.id ≠ first.id)).filter
            (fun q => decide (q.id ∉ rest.map (fun o => o.id))) = [] := by
          rw [List.filter_eq_nil_iff]
          intro q hq
          have hq' : q ∈ first :: rest ∧ q.id ≠ first.id := by
            have := List.mem_filter.mp hq
            simpa using this
          have hqr : q ∈ rest := by
            rcases List.mem_cons.mp hq'.1 with h | h
            · exact absurd (by rw [h]) hq'.2
            · exact h
          simpa using List.mem_map_of_mem (fun o => o.id) hqr
        have h2 : ([newO tp ts].filter
            (fun q => decide (q.id ∉ rest.map (fun o => o.id)))) = [newO tp ts] := by
          rw [List.filter_cons_of_pos]
          · rfl
          · have := hfresh tp ts
            rw [List.map_cons] at this
            simp only [List.mem_cons, not_or] at this
            simpa using this.2
        rw [h1, h2, List.nil_append]

lemma reconcileSide_no_place_of_post (paused : Bool) (l : List OpenOrder) (tp ts : ℚ)
    (newO : ℚ → ℚ → OpenOrder)
    (hnodup : (l.map (fun o => o.id)).Nodup)
    (hfresh : ∀ p s, (newO p s).id ∉ l.map (fun o => o.id))
    (hprice : ∀ p s, (newO p s).price = p) :
    ∀ a ∈ reconcileSide paused (applyActions newO l (reconcileSide paused l tp ts)) tp ts,
      actionIsPlace a = false := by
  rw [reconcile_post paused l tp ts newO hnodup hfresh]
  unfold reconcilePostState
  cases paused
  case true =>
    rw [if_pos rfl]
    intro a ha
    simp [reconcileSide] at ha
  case false =>
    rw [if_neg (by simp)]
    have hnew : ∀ a ∈ reconcileSide false [newO tp ts] tp ts, actionIsPlace a = false := by
      have hk : isWithinTolerance (newO tp ts).price tp (1/2) = true := by
        rw [hprice tp ts]
        exact isWithinTolerance_self tp
      rw [reconcileSide_keep (newO tp ts) [] tp ts hk]
      intro a ha
      simp only [List.map_nil, List.mem_singleton] at ha
      rw [ha]
      rfl
    cases l with
    | nil => exact hnew
    | cons first rest =>
      show ∀ a ∈ reconcileSide false
          (if isWithinTolerance first.price tp (1/2) then [first] else [newO tp ts]) tp ts,
        actionIsPlace a = false
      by_cases ht : isWithinTolerance first.price tp (1/2) = true
      · rw [if_pos ht, reconcileSide_keep first [] tp ts ht]
        intro a ha
        simp only [List.map_nil, List.mem_singleton] at ha
        rw [ha]
        rfl
      · rw [if_neg ht]
        exact hnew

/-- C7: an existing first order within 0.5 bp of the target is kept (no
cancel and no placement for it, only its duplicates are cancelled); and a
second cycle run with the same configuration, market data and position,
against the remote order state that the first cycle's actions produced
(projected per token and side, with well-formed distinct order ids and
fresh venue ids priced at the requested target), issues zero new
placements. -/
theorem reconcile_keep_and_idempotent :
    (∀ (first : OpenOrder) (rest : List OpenOrder) (tp ts : ℚ),
        isWithinTolerance first.price tp (1/2) = true →
        reconcileSide false (first :: rest) tp ts =
          OrderAction.keep first.id :: rest.map (fun o => OrderAction.cancel o.id)) ∧
    (∀ (baseBp orderSize maxPosition : ℚ) (m : MarketInput) (netPos : ℚ)
        (existing1 existing2 : List OpenOrder) (newBuy newSell : ℚ → ℚ → OpenOrder),
        ((existing1.filter (buyFilter m.tokenId)).map (fun o => o.id)).Nodup →
        ((existing1.filter (sellFilter m.tokenId)).map (fun o => o.id)).Nodup →
        (∀ p s, (newBuy p s).id ∉
          (existing1.filter (buyFilter m.tokenId)).map (fun o => o.id)) →
        (∀ p s, (newSell p s).id ∉
          (existing1.filter (sellFilter m.tokenId)).map (fun o => o.id)) →
        (∀ p s, (newBuy p s).price = p) →
        (∀ p s, (newSell p s).price = p) →
        existing2.filter (buyFilter m.tokenId) =
          applyActions newBuy (existing1.filter (buyFilter m.tokenId))
            (marketBuyActions
              (processMarket baseBp orderSize maxPosition m netPos existing1)) →
        existing2.filter (sellFilter m.tokenId) =
          applyActions newSell (existing1.filter (sellFilter m.tokenId))
            (marketSellActions
              (processMarket baseBp orderSize maxPosition m netPos existing1)) →
        marketPlaceCount (processMarket baseBp orderSize maxPosition m netPos existing2) = 0) := by
  constructor
  · exact fun first rest tp ts h => reconcileSide_keep first rest tp ts h
  · intro baseBp orderSize maxPosition m netPos e1 e2 newBuy newSell
      hnb hns hfb hfs hpb hps h2b h2s
    by_cases hsk : (planQuote baseBp orderSize maxPosition m netPos).skipped = true
    · have h2 : processMarket baseBp orderSize maxPosition m netPos e2 =
          MarketActions.skipped := by
        simp [processMarket, hsk]
      rw [h2]
      rfl
    · rw [Bool.not_eq_true] at hsk
      have hm1 : processMarket baseBp orderSize maxPosition m netPos e1 =
          MarketActions.acted
            (reconcileSide (planQuote baseBp orderSize maxPosition m netPos).pauseBuy
              (e1.filter (buyFilter m.tokenId))
              (planQuote baseBp orderSize maxPosition m netPos).safeBuyPrice
              (planQuote baseBp orderSize maxPosition m netPos).buySize)
            (reconcileSide (planQuote baseBp orderSize maxPosition m netPos).pauseSell
              (e1.filter (sellFilter m.tokenId))
              (planQuote baseBp orderSize maxPosition m netPos).safeSellPrice
              (planQuote baseBp orderSize maxPosition m netPos).sellSize) := by
        simp [processMarket, hsk]
      have hm2 : processMarket baseBp orderSize maxPosition m netPos e2 =
          MarketActions.acted
            (reconcileSide (planQuote baseBp orderSize maxPosition m netPos).pauseBuy
              (e2.filter (buyFilter m.tokenId))
              (planQuote baseBp orderSize maxPosition m netPos).safeBuyPrice
              (planQuote baseBp orderSize maxPosition m netPos).buySize)
            (reconcileSide (planQuote baseBp orderSize maxPosition m netPos).pauseSell
              (e2.filter (sellFilter m.tokenId))
              (planQuote baseBp orderSize maxPosition m netPos).safeSellPrice
              (planQuote baseBp orderSize maxPosition m netPos).sellSize) := by
        simp [processMarket, hsk]
      rw [hm1] at h2b h2s
      simp only [marketBuyActions, marketSellActions] at h2b h2s
      have hbno := reconcileSide_no_place_of_post
        (planQuote baseBp orderSize maxPosition m netPos).pauseBuy
        (e1.filter (buyFilter m.tokenId))
        (planQuote baseBp orderSize maxPosition m netPos).safeBuyPrice
        (planQuote baseBp orderSize maxPosition m netPos).buySize newBuy hnb hfb hpb
      have hsno := reconcileSide_no_place_of_post
        (planQuote baseBp orderSize maxPosition m netPos).pauseSell
        (e1.filter (sellFilter m.tokenId))
        (planQuote baseBp orderSize maxPosition m netPos).safeSellPrice
        (planQuote baseBp orderSize maxPosition m netPos).sellSize newSell hns hfs hps
    
      rw [← h2b] at hbno
      rw [← h2s] at hsno
      unfold marketPlaceCount
      rw [hm2]
      simp only [marketBuyActions, marketSellActions]
      rw [List.filter_eq_nil_iff.mpr (fun a ha => by simp [hbno a ha]),
        List.filter_eq_nil_iff.mpr (fun a ha => by simp [hsno a ha])]
      rfl

/-- The witness market for the reconcile-idempotence theorem: token T, mid
0.5, no sponsor, quiet book, tick 0.01. -/
def idemMarket : MarketInput := ⟨"T", 1/2, 0, 0, 1/100, 2⟩

/-- The venue's order constructor for BUY placements of the witness run. -/
def idemNewBuy : ℚ → ℚ → OpenOrder := fun p s => ⟨"B1", "T", "BUY", p, s⟩

/-- The venue's order constructor for SELL placements of the witness run. -/
def idemNewSell : ℚ → ℚ → OpenOrder := fun p s => ⟨"S1", "T", "SELL", p, s⟩

/-- The remote order state after the first witness cycle ran on an empty
book: one BUY resting at 0.49 and one SELL at 0.51. -/
def idemRemote : List OpenOrder :=
  [⟨"B1", "T", "BUY", 49/100, 6⟩, ⟨"S1", "T", "SELL", 51/100, 6⟩]

/-- C7 witness: the idempotence theorem applied to a concrete second cycle
over the orders the first cycle placed; it issues zero placements. -/
theorem reconcile_keep_and_idempotent_witness :
    marketPlaceCount (processMarket 22 6 30 idemMarket 0 idemRemote) = 0 := by
  have hc : (⌈(2511/50 : ℚ)⌉ : ℤ) = 51 := by
    rw [Int.ceil_eq_iff]
    norm_num
  apply reconcile_keep_and_idempotent.2 22 6 30 idemMarket 0 [] idemRemote
    idemNewBuy idemNewSell
  · simp
  · simp
  · intro p s
    simp
  · intro p s
    simp
  · intro p s
    rfl
  · intro p s
    rfl
  · norm_num [processMarket, planQuote, idemMarket, applySkew, calcDynamicSpread, jsRound,
      toFixedNum, floorToTick, ceilToTick, reconcileSide, hc, marketBuyActions,
      applyActions, idemNewBuy, idemRemote, buyFilter, List.filter]
    rfl
  · norm_num [processMarket, planQuote, idemMarket, applySkew, calcDynamicSpread, jsRound,
      toFixedNum, floorToTick, ceilToTick, reconcileSide, hc, marketSellActions,
      applyActions, idemNewSell, idemRemote, sellFilter, List.filter]
    rfl

/-- C4 witness: the pause theorem's BUY half at position 40 against cap 30,
with one resting BUY order on the token. -/
theorem inventory_pause_no_orders_witness :
    (planQuote 22 6 30 idemMarket 40).pauseBuy = true ∧
    (paperPlacesOrders (planQuote 22 6 30 idemMarket 40)).1 = false ∧
    (∀ a ∈ marketBuyActions (processMarket 22 6 30 idemMarket 40 idemRemote),
      actionIsPlace a = false) ∧
    (∀ o ∈ idemRemote.filter (buyFilter idemMarket.tokenId),
      OrderAction.cancel o.id ∈
        marketBuyActions (processMarket 22 6 30 idemMarket 40 idemRemote)) :=
  (inventory_pause_no_orders 22 6 30 idemMarket 40 idemRemote).1 (by norm_num)
